import Mathlib

/-!
Verification of the thesis-evaluation program (`app.py`).

This file shallowly embeds the two logic-bearing components of the program:

* the grade engine (`GRADE_LOOKUP`, `convert_points_to_grade`,
  `compute_weighted_grade`), modelled over `ℚ` — Python floats are
  idealised as exact rationals and Python's `round(x, 1)` as exact
  round-half-to-even at one decimal place.  Non-integer constants are
  written with `mkRat` (`mkRat 964 10` is the table value `96.4`,
  `mkRat 75 100` is the weight `0.75`) so that they evaluate;
* the title-page field extractor (`extract_title_page_fields`), modelled
  over `List Char` / `String`, with each regular expression hand-compiled
  to an equivalent deterministic matcher.
-/

/-! ## Grade engine -/

/-- The OMBA Notenübersicht lookup table from the source, 72 rows of
`(Erreichte Punkte in %, Dezimalnote)`, sorted descending by threshold.
`mkRat a 10` stands for the decimal literal `a/10` of the source
(e.g. `mkRat 964 10` = 96.4, `mkRat 11 10` = 1.1). -/
def GRADE_LOOKUP : List (ℚ × ℚ) := [
  (100, 1), (99, 1), (98, 1),
  (97, mkRat 11 10), (mkRat 964 10, mkRat 11 10),
  (96, mkRat 12 10), (95, mkRat 12 10), (mkRat 948 10, mkRat 12 10),
  (94, mkRat 13 10), (mkRat 932 10, mkRat 13 10),
  (93, mkRat 14 10), (92, mkRat 14 10), (mkRat 916 10, mkRat 14 10),
  (91, mkRat 15 10), (90, mkRat 15 10),
  (89, mkRat 16 10), (mkRat 884 10, mkRat 16 10),
  (88, mkRat 17 10), (87, mkRat 17 10), (mkRat 868 10, mkRat 17 10),
  (86, mkRat 18 10), (mkRat 852 10, mkRat 18 10),
  (85, mkRat 19 10), (84, mkRat 19 10), (mkRat 836 10, mkRat 19 10),
  (83, 2), (82, 2),
  (81, mkRat 21 10), (mkRat 804 10, mkRat 21 10),
  (80, mkRat 22 10), (79, mkRat 22 10), (mkRat 788 10, mkRat 22 10),
  (78, mkRat 23 10), (mkRat 772 10, mkRat 23 10),
  (77, mkRat 24 10), (76, mkRat 24 10), (mkRat 756 10, mkRat 24 10),
  (75, mkRat 25 10), (74, mkRat 25 10),
  (73, mkRat 26 10), (mkRat 724 10, mkRat 26 10),
  (72, mkRat 27 10), (71, mkRat 27 10), (mkRat 708 10, mkRat 27 10),
  (70, mkRat 28 10), (mkRat 692 10, mkRat 28 10),
  (69, mkRat 29 10), (68, mkRat 29 10), (mkRat 676 10, mkRat 29 10),
  (67, 3), (66, 3),
  (65, mkRat 31 10), (mkRat 644 10, mkRat 31 10),
  (64, mkRat 32 10), (63, mkRat 32 10), (mkRat 628 10, mkRat 32 10),
  (62, mkRat 33 10), (mkRat 612 10, mkRat 33 10),
  (61, mkRat 34 10), (60, mkRat 34 10), (mkRat 596 10, mkRat 34 10),
  (59, mkRat 35 10), (58, mkRat 35 10),
  (57, mkRat 36 10), (mkRat 564 10, mkRat 36 10),
  (56, mkRat 37 10), (55, mkRat 37 10), (mkRat 548 10, mkRat 37 10),
  (54, mkRat 38 10), (mkRat 532 10, mkRat 38 10),
  (53, mkRat 39 10), (52, mkRat 39 10), (mkRat 516 10, mkRat 39 10),
  (51, 4), (50, 4)]

/-- The `for threshold, grade in GRADE_LOOKUP: if threshold <= p: return grade`
loop of `convert_points_to_grade`: first entry whose threshold is `≤ p`. -/
def lookupGrade : List (ℚ × ℚ) → ℚ → Option ℚ
  | [], _ => none
  | e :: rest, p => if e.1 ≤ p then some e.2 else lookupGrade rest p

/-- Embedding of `convert_points_to_grade` (app.py lines 253–263).
`None` propagates; `p < 50` short-circuits to the fail grade 5.0; otherwise
the table is scanned in order with a defensive 5.0 fallback. -/
def convert_points_to_grade : Option ℚ → Option ℚ
  | none => none
  | some points =>
      if points < 50 then some 5
      else some ((lookupGrade GRADE_LOOKUP points).getD 5)

/-- Round-half-to-even of `10 * x` to an integer, computed on the reduced
numerator/denominator pair; this is Python's `round(x, 1)` scaled by 10
(idealised over exact rationals). -/
def round1_num (x : ℚ) : ℤ :=
  let n10 := 10 * x.num
  let d : ℤ := x.den
  let f := n10.fdiv d
  let r2 := 2 * (n10 - f * d)
  if r2 < d then f
  else if d < r2 then f + 1
  else if f % 2 = 0 then f else f + 1

/-- Python's `round(x, 1)` idealised over exact rationals
(round-half-to-even at one decimal place). -/
def py_round1 (x : ℚ) : ℚ := mkRat (round1_num x) 10

/-- The dictionary returned by `compute_weighted_grade`. -/
structure WeightedGradeResult where
  weighted_thesis : ℚ
  weighted_defense : ℚ
  combined_points : ℚ
  thesis_grade : Option ℚ
  defense_grade : Option ℚ
  combined_grade : Option ℚ
  deriving Repr, DecidableEq

/-- Embedding of `compute_weighted_grade` (app.py lines 266–277);
`mkRat 75 100` and `mkRat 25 100` are the source's weights `0.75`, `0.25`. -/
def compute_weighted_grade (thesis_points defense_points : ℚ) : WeightedGradeResult :=
  let w_thesis := py_round1 (thesis_points * mkRat 75 100)
  let w_defense := py_round1 (defense_points * mkRat 25 100)
  let combined := py_round1 (w_thesis + w_defense)
  { weighted_thesis := w_thesis
    weighted_defense := w_defense
    combined_points := combined
    thesis_grade := convert_points_to_grade (some thesis_points)
    defense_grade := convert_points_to_grade (some defense_points)
    combined_grade := convert_points_to_grade (some combined) }

/-! ### Grade engine lemmas -/

lemma lookupGrade_mem : ∀ (L : List (ℚ × ℚ)) (p g : ℚ),
    lookupGrade L p = some g → g ∈ L.map Prod.snd := by
  intro L
  induction L with
  | nil => intro p g h; simp [lookupGrade] at h
  | cons e rest ih =>
    intro p g h
    rw [lookupGrade] at h
    by_cases hc : e.1 ≤ p
    · rw [if_pos hc] at h
      simp at h
      simp [← h]
    · rw [if_neg hc] at h
      simp [ih p g h]

lemma lookupGrade_total : ∀ (L : List (ℚ × ℚ)) (p : ℚ) (e : ℚ × ℚ),
    e ∈ L → e.1 ≤ p → ∃ g, lookupGrade L p = some g := by
  intro L
  induction L with
  | nil => intro p e he; simp at he
  | cons f rest ih =>
    intro p e he hle
    rw [lookupGrade]
    by_cases hc : f.1 ≤ p
    · exact ⟨f.2, by rw [if_pos hc]⟩
    · rcases List.mem_cons.mp he with h | h
      · exact absurd hle (h ▸ hc)
      · obtain ⟨g, hg⟩ := ih p e h hle
        exact ⟨g, by rw [if_neg hc]; exact hg⟩

lemma lookupGrade_mono : ∀ (L : List (ℚ × ℚ)) (p1 p2 g1 : ℚ),
    List.Pairwise (fun a b => a.2 ≤ b.2) L → p1 ≤ p2 →
    lookupGrade L p1 = some g1 →
    ∃ g2, lookupGrade L p2 = some g2 ∧ g2 ≤ g1 := by
  intro L
  induction L with
  | nil => intro p1 p2 g1 _ _ h; simp [lookupGrade] at h
  | cons e rest ih =>
    intro p1 p2 g1 hpw h12 h1
    obtain ⟨he, hrest⟩ := List.pairwise_cons.mp hpw
    rw [lookupGrade] at h1 ⊢
    by_cases hc1 : e.1 ≤ p1
    · rw [if_pos hc1] at h1
      rw [if_pos (le_trans hc1 h12)]
      exact ⟨e.2, rfl, by simp at h1; simp [h1]⟩
    · rw [if_neg hc1] at h1
      by_cases hc2 : e.1 ≤ p2
      · rw [if_pos hc2]
        refine ⟨e.2, rfl, ?_⟩
        obtain ⟨b, hb, hbg⟩ := List.mem_map.mp (lookupGrade_mem rest p1 g1 h1)
        exact hbg ▸ he b hb
      · rw [if_neg hc2]
        exact ih p1 p2 g1 hrest h12 h1

lemma grade_lookup_pairwise :
    List.Pairwise (fun a b : ℚ × ℚ => a.2 ≤ b.2) GRADE_LOOKUP := by decide

lemma fifty_mem_grade_lookup : ((50 : ℚ), (4 : ℚ)) ∈ GRADE_LOOKUP := by decide

/-! ### Claim theorems for the grade engine -/

/-- C2: for every score `p` with `50 ≤ p ≤ 100` the returned grade is a value
present in the threshold table, and the score-to-grade map is monotonically
non-increasing on that range (`p1 ≤ p2` implies `grade p2 ≤ grade p1`).
The membership part covers every such `p` since `p1 = p2 = p` is allowed. -/
theorem convert_points_in_table_and_antitone (p1 p2 : ℚ)
    (h1 : 50 ≤ p1) (h12 : p1 ≤ p2) (_h2 : p2 ≤ 100) :
    ∃ g1 g2, convert_points_to_grade (some p1) = some g1 ∧
      convert_points_to_grade (some p2) = some g2 ∧
      g1 ∈ GRADE_LOOKUP.map Prod.snd ∧ g2 ∈ GRADE_LOOKUP.map Prod.snd ∧
      g2 ≤ g1 := by
  have hn1 : ¬ (p1 < 50) := not_lt.mpr h1
  have hn2 : ¬ (p2 < 50) := not_lt.mpr (le_trans h1 h12)
  obtain ⟨g1, hg1⟩ :=
    lookupGrade_total GRADE_LOOKUP p1 ((50 : ℚ), (4 : ℚ)) fifty_mem_grade_lookup h1
  obtain ⟨g2, hg2, hle⟩ := lookupGrade_mono GRADE_LOOKUP p1 p2 g1 grade_lookup_pairwise h12 hg1
  refine ⟨g1, g2, ?_, ?_, ?_, ?_, hle⟩
  · rw [convert_points_to_grade, if_neg hn1, hg1]; rfl
  · rw [convert_points_to_grade, if_neg hn2, hg2]; rfl
  · exact lookupGrade_mem GRADE_LOOKUP p1 g1 hg1
  · exact lookupGrade_mem GRADE_LOOKUP p2 g2 hg2

/-- Witness for C2 at the concrete scores 50 and 100. -/
theorem convert_points_in_table_and_antitone_witness :
    ∃ g1 g2, convert_points_to_grade (some 50) = some g1 ∧
      convert_points_to_grade (some 100) = some g2 ∧
      g1 ∈ GRADE_LOOKUP.map Prod.snd ∧ g2 ∈ GRADE_LOOKUP.map Prod.snd ∧
      g2 ≤ g1 :=
  convert_points_in_table_and_antitone 50 100 (by norm_num) (by norm_num) (by norm_num)

/-- C3: every score below 50 — including negative scores — maps to the
fixed fail grade 5.0. -/
theorem convert_points_below_fifty_fails (p : ℚ) (h : p < 50) :
    convert_points_to_grade (some p) = some 5 := by
  rw [convert_points_to_grade, if_pos h]

/-- Witness for C3 at the concrete (negative) score -7. -/
theorem convert_points_below_fifty_fails_witness :
    (-7 : ℚ) < 50 ∧ convert_points_to_grade (some (-7)) = some 5 :=
  ⟨by norm_num, convert_points_below_fifty_fails (-7) (by norm_num)⟩

/-- C8: every score above 100 falls through to the topmost, most favorable
table entry and gets its grade 1.0; the out-of-range input is not rejected. -/
theorem convert_points_above_hundred (p : ℚ) (h : 100 < p) :
    convert_points_to_grade (some p) = some 1 ∧
    (GRADE_LOOKUP.map Prod.snd).head? = some 1 := by
  have hn : ¬ (p < 50) := by linarith
  have hhead : GRADE_LOOKUP = ((100 : ℚ), (1 : ℚ)) :: GRADE_LOOKUP.tail := rfl
  constructor
  · rw [convert_points_to_grade, if_neg hn, hhead, lookupGrade,
      if_pos (show ((100 : ℚ), (1 : ℚ)).1 ≤ p from le_of_lt h)]
    rfl
  · rfl

/-- Witness for C8 at the concrete score 150. -/
theorem convert_points_above_hundred_witness :
    convert_points_to_grade (some 150) = some 1 ∧
    (GRADE_LOOKUP.map Prod.snd).head? = some 1 :=
  convert_points_above_hundred 150 (by norm_num)

/-- C9: the absent score (`None`) maps to the absent grade (`None`), not to
any grade — in particular not to the fail grade 5.0. -/
theorem convert_points_none :
    convert_points_to_grade none = none ∧ convert_points_to_grade none ≠ some 5 :=
  ⟨rfl, by simp [convert_points_to_grade]⟩

/-- C4: the weighted-grade computation returns
`weightedA = round(scoreA*0.75, 1)`, `weightedB = round(scoreB*0.25, 1)`,
`combined = round(weightedA + weightedB, 1)` (two-step rounding), and grades
`scoreToGrade` of the unweighted scores and of the combined score; moreover
the two-step rounding genuinely differs from rounding
`0.75*scoreA + 0.25*scoreB` directly (shown at scores 1 and 2). -/
theorem compute_weighted_grade_spec :
    (∀ a b : ℚ,
      (compute_weighted_grade a b).weighted_thesis = py_round1 (a * mkRat 75 100) ∧
      (compute_weighted_grade a b).weighted_defense = py_round1 (b * mkRat 25 100) ∧
      (compute_weighted_grade a b).combined_points =
        py_round1 (py_round1 (a * mkRat 75 100) + py_round1 (b * mkRat 25 100)) ∧
      (compute_weighted_grade a b).thesis_grade = convert_points_to_grade (some a) ∧
      (compute_weighted_grade a b).defense_grade = convert_points_to_grade (some b) ∧
      (compute_weighted_grade a b).combined_grade =
        convert_points_to_grade
          (some (py_round1 (py_round1 (a * mkRat 75 100) + py_round1 (b * mkRat 25 100))))) ∧
    py_round1 (py_round1 ((1 : ℚ) * mkRat 75 100) + py_round1 ((2 : ℚ) * mkRat 25 100)) ≠
      py_round1 ((1 : ℚ) * mkRat 75 100 + (2 : ℚ) * mkRat 25 100) := by
  refine ⟨fun _ _ => ⟨rfl, rfl, rfl, rfl, rfl, rfl⟩, ?_⟩
  have e1 : (1 : ℚ) * mkRat 75 100 = mkRat 3 4 := by norm_num [Rat.mkRat_eq_div]
  have e2 : (2 : ℚ) * mkRat 25 100 = mkRat 1 2 := by norm_num [Rat.mkRat_eq_div]
  rw [e1, e2]
  have e3 : py_round1 (mkRat 3 4) = mkRat 8 10 := by decide
  have e4 : py_round1 (mkRat 1 2) = mkRat 5 10 := by decide
  rw [e3, e4]
  have e5 : mkRat 8 10 + mkRat 5 10 = mkRat 13 10 := by norm_num [Rat.mkRat_eq_div]
  have e6 : mkRat 3 4 + mkRat 1 2 = mkRat 5 4 := by norm_num [Rat.mkRat_eq_div]
  rw [e5, e6]
  decide

/-! ## Title-page extraction

The extractor is modelled from the point where the PDF text layer has been
read: `extract_title_page_fields` below consumes the raw page text (a
`String`); the `pdfplumber` call and the surrounding `try/except` are the
out-of-scope I/O layer.  Each regular expression of the source is compiled
by hand to a deterministic matcher on `List Char`; determinism is justified
because in every pattern the character classes of adjacent greedy pieces
are disjoint, so the regex backtracking can never succeed with a shorter
greedy run. -/

/-- Python's `\s` / `str.strip` whitespace (ASCII model). -/
def pyIsSpace (c : Char) : Bool :=
  c == ' ' || c == '\t' || c == '\n' || c == '\r' || c == '\x0b' || c == '\x0c'

/-- The character class `[\s.]`. -/
def wsDot (c : Char) : Bool := pyIsSpace c || c == '.'

/-- The character class `[,\s]`. -/
def commaWs (c : Char) : Bool := c == ',' || pyIsSpace c

/-- A regex word character `\w` (ASCII model), for `\b` boundaries. -/
def isWordChar (c : Char) : Bool := c.isAlphanum || c == '_'

/-- Whether the optional previous character is a word character. -/
def isWordOpt : Option Char → Bool
  | none => false
  | some c => isWordChar c

/-- Whether a list starts with a word character. -/
def headIsWord (l : List Char) : Bool :=
  match l.head? with
  | some c => isWordChar c
  | none => false

/-- Python `str.strip` on a character list. -/
def stripChars (l : List Char) : List Char :=
  ((l.dropWhile pyIsSpace).reverse.dropWhile pyIsSpace).reverse

/-- Python `raw.split("\n")` on a character list (keeps empty segments). -/
def splitNewline : List Char → List (List Char)
  | [] => [[]]
  | c :: rest =>
      if c = '\n' then [] :: splitNewline rest
      else
        match splitNewline rest with
        | h :: t => (c :: h) :: t
        | [] => [[c]]

/-- Python `line.split(",", 1)`: content before the first comma and, when a
comma exists, the content after it. -/
def splitComma1 : List Char → List Char × Option (List Char)
  | [] => ([], none)
  | c :: rest =>
      if c = ',' then ([], some rest)
      else
        let p := splitComma1 rest
        (c :: p.1, p.2)

/-- Case-insensitive literal prefix test (`pat` given in lowercase). -/
def ciStartsWith : List Char → List Char → Bool
  | [], _ => true
  | _ :: _, [] => false
  | p :: ps, c :: cs => p == c.toLower && ciStartsWith ps cs

/-- `re.fullmatch(r'master\s+thesis', line, re.IGNORECASE)`. -/
def isMasterThesisLine (cs : List Char) : Bool :=
  let ls := cs.map Char.toLower
  ls.take 6 == "master".data &&
    (let rest := ls.drop 6
     !(rest.takeWhile pyIsSpace).isEmpty && rest.dropWhile pyIsSpace == "thesis".data)

/-- `_RE_CHAIR.match(line)`: the prefix pattern `^Chair\s+of`, case-insensitive. -/
def isChairLine (cs : List Char) : Bool :=
  let ls := cs.map Char.toLower
  ls.take 5 == "chair".data &&
    (let rest := ls.drop 5
     !(rest.takeWhile pyIsSpace).isEmpty && (rest.dropWhile pyIsSpace).take 2 == "of".data)

/-- `_RE_PROF.match(line)`: the prefix pattern `^Prof[\s.]`, case-insensitive. -/
def isProfLine (cs : List Char) : Bool :=
  let ls := cs.map Char.toLower
  ls.take 4 == "prof".data &&
    (match ls.drop 4 with
     | c :: _ => wsDot c
     | [] => false)

/-- Whether the case-sensitive substitution pattern `^Prof[\s.]+...` of the
`re.sub` in the advisor step matches at all: literal `Prof` followed by at
least one `[\s.]` character.  (The optional `(?:Dr[\s.]+)?` group cannot
affect whether the pattern matches.) -/
def profSubMatches (cs : List Char) : Bool :=
  match cs with
  | 'P' :: 'r' :: 'o' :: 'f' :: rest => !(rest.takeWhile wsDot).isEmpty
  | _ => false

/-- `re.sub(r'^Prof[\s.]+(?:Dr[\s.]+)?', '', raw_adv)`.  Unlike `_RE_PROF`
this substitution pattern carries no `IGNORECASE` flag, so it is
case-sensitive; when the pattern does not match, `re.sub` returns the
input unchanged.  When it matches, the input starts with `Prof`, the
greedy `[\s.]+` run is dropped, and an optional `Dr` + `[\s.]+` run after
it is dropped as well. -/
def subProfDr (cs : List Char) : List Char :=
  if profSubMatches cs then
    let r1 := (cs.drop 4).dropWhile wsDot
    match r1 with
    | 'D' :: 'r' :: r2 =>
        if (r2.takeWhile wsDot).isEmpty then r1 else r2.dropWhile wsDot
    | _ => r1
  else cs

/-- The month alternatives of `_RE_DATE_LONG`, in regex order, lowercase:
3-letter abbreviation plus the optional remainder of the full name. -/
def monthTable : List (List Char × List Char) :=
  [("jan".data, "uary".data), ("feb".data, "ruary".data), ("mar".data, "ch".data),
   ("apr".data, "il".data), ("may".data, ([] : List Char)), ("jun".data, "e".data),
   ("jul".data, "y".data), ("aug".data, "ust".data), ("sep".data, "tember".data),
   ("oct".data, "ober".data), ("nov".data, "ember".data), ("dec".data, "ember".data)]

/-- The `[\s.]*(\d{1,2})[,\s]+(\d{4})\b` tail of `_RE_DATE_LONG`, anchored;
returns the matched characters. -/
def dateTail (cs : List Char) : Option (List Char) :=
  let w1 := cs.takeWhile wsDot
  let r1 := cs.dropWhile wsDot
  let d := r1.takeWhile Char.isDigit
  let r2 := r1.dropWhile Char.isDigit
  if d.length = 0 ∨ 2 < d.length then none
  else
    let s := r2.takeWhile commaWs
    let r3 := r2.dropWhile commaWs
    if s.length = 0 then none
    else
      let y := r3.takeWhile Char.isDigit
      let r4 := r3.dropWhile Char.isDigit
      if y.length = 4 ∧ headIsWord r4 = false then some (w1 ++ d ++ s ++ y) else none

/-- `_RE_DATE_LONG` anchored at the current position (`prev` is the
character before it, for the leading `\b`); returns group 0.  At a fixed
position at most one month alternative can match, since the twelve
abbreviations differ pairwise within their first three letters, and the
optional full-name suffix is never followed by a successful bare-match
(the tail must begin with `[\s.]` or a digit, never a letter). -/
def longDateAt (prev : Option Char) (cs : List Char) : Option (List Char) :=
  if isWordOpt prev then none
  else
    match monthTable.find? (fun e => ciStartsWith e.1 cs) with
    | none => none
    | some e =>
        let rest := cs.drop e.1.length
        match (if ciStartsWith e.2 rest then dateTail (rest.drop e.2.length) else none) with
        | some t => some (cs.take (e.1.length + e.2.length) ++ t)
        | none =>
            match dateTail rest with
            | some t => some (cs.take e.1.length ++ t)
            | none => none

/-- `re.search` driver returning the first match, threading the previous
character for `\b` tests. -/
def searchO {α : Type} (f : Option Char → List Char → Option α) :
    Option Char → List Char → Option α
  | _, [] => none
  | prev, c :: rest =>
      match f prev (c :: rest) with
      | some r => some r
      | none => searchO f (some c) rest

/-- `re.search` driver for boolean matchers. -/
def searchB (f : Option Char → List Char → Bool) : Option Char → List Char → Bool
  | _, [] => false
  | prev, c :: rest => f prev (c :: rest) || searchB f (some c) rest

/-- `_RE_DATE_LONG.search`, returning group 0. -/
def searchLongDate (cs : List Char) : Option (List Char) := searchO longDateAt none cs

/-- `bool(_RE_DATE_LONG.search(...))`. -/
def hasLongDate (cs : List Char) : Bool := (searchLongDate cs).isSome

/-- `_RE_DATE_SHORT` (`\b(\d{1,2})[./](\d{1,2})[./](\d{4})\b`) anchored at
the current position. -/
def shortDateAt (prev : Option Char) (cs : List Char) : Bool :=
  !isWordOpt prev &&
    (let d1 := cs.takeWhile Char.isDigit
     let r1 := cs.dropWhile Char.isDigit
     (d1.length == 1 || d1.length == 2) &&
       match r1 with
       | s1 :: r2 =>
           (s1 == '.' || s1 == '/') &&
             (let d2 := r2.takeWhile Char.isDigit
              let r3 := r2.dropWhile Char.isDigit
              (d2.length == 1 || d2.length == 2) &&
                match r3 with
                | s2 :: r4 =>
                    (s2 == '.' || s2 == '/') &&
                      (let d3 := r4.takeWhile Char.isDigit
                       let r5 := r4.dropWhile Char.isDigit
                       d3.length == 4 && !headIsWord r5)
                | [] => false)
       | [] => false)

/-- `bool(_RE_DATE_SHORT.search(...))`. -/
def hasShortDate (cs : List Char) : Bool := searchB shortDateAt none cs

/-- `_RE_DOB` (`\b\d{2}\.\d{2}\.\d{4}\b`) anchored at the current position. -/
def dobAt (prev : Option Char) (cs : List Char) : Bool :=
  !isWordOpt prev &&
    (let d1 := cs.takeWhile Char.isDigit
     let r1 := cs.dropWhile Char.isDigit
     d1.length == 2 &&
       match r1 with
       | '.' :: r2 =>
           let d2 := r2.takeWhile Char.isDigit
           let r3 := r2.dropWhile Char.isDigit
           d2.length == 2 &&
             (match r3 with
              | '.' :: r4 =>
                  let d3 := r4.takeWhile Char.isDigit
                  let r5 := r4.dropWhile Char.isDigit
                  d3.length == 4 && !headIsWord r5
              | _ => false)
       | _ => false)

/-- `_is_dob_line`: `bool(_RE_DOB.search(line))`. -/
def isDobLine (cs : List Char) : Bool := searchB dobAt none cs

/-- `re.search(r'\(([^,\)]+),\s*(\d{1,2}\.\d{1,2}\.\d{4})\)', ...)` anchored
at the current position; returns groups 1 and 2. -/
def parenLocDateAt : List Char → Option (List Char × List Char)
  | '(' :: rest =>
      let g1 := rest.takeWhile (fun c => !(c == ',' || c == ')'))
      let r1 := rest.dropWhile (fun c => !(c == ',' || c == ')'))
      if g1.isEmpty then none
      else
        match r1 with
        | ',' :: r2 =>
            let r3 := r2.dropWhile pyIsSpace
            let d1 := r3.takeWhile Char.isDigit
            let r4 := r3.dropWhile Char.isDigit
            if d1.length = 0 ∨ 2 < d1.length then none
            else
              match r4 with
              | '.' :: r5 =>
                  let d2 := r5.takeWhile Char.isDigit
                  let r6 := r5.dropWhile Char.isDigit
                  if d2.length = 0 ∨ 2 < d2.length then none
                  else
                    match r6 with
                    | '.' :: r7 =>
                        let d3 := r7.takeWhile Char.isDigit
                        let r8 := r7.dropWhile Char.isDigit
                        if d3.length = 4 ∧ r8.head? = some ')' then
                          some (g1, d1 ++ '.' :: d2 ++ '.' :: d3)
                        else none
                    | _ => none
              | _ => none
        | _ => none
  | _ => none

/-- Search wrapper for `parenLocDateAt` (the pattern has no `\b`). -/
def searchParenLocDate : List Char → Option (List Char × List Char)
  | [] => none
  | c :: rest =>
      match parenLocDateAt (c :: rest) with
      | some r => some r
      | none => searchParenLocDate rest

/-- `re.search(r'\((\d{6,10})\)', ...)` anchored at the current position;
returns group 1. -/
def parenIdAt : List Char → Option (List Char)
  | '(' :: rest =>
      if 6 ≤ (rest.takeWhile Char.isDigit).length ∧
          (rest.takeWhile Char.isDigit).length ≤ 10 ∧
          (rest.dropWhile Char.isDigit).head? = some ')' then
        some (rest.takeWhile Char.isDigit)
      else none
  | _ => none

/-- Search wrapper for `parenIdAt`. -/
def searchParenId : List Char → Option (List Char)
  | [] => none
  | c :: rest =>
      match parenIdAt (c :: rest) with
      | some r => some r
      | none => searchParenId rest

/-- `re.fullmatch(r'\d{6,10}', line)`. -/
def isStandaloneId (cs : List Char) : Bool :=
  decide (6 ≤ cs.length) && decide (cs.length ≤ 10) && cs.all Char.isDigit

/-- Python `str.isdigit` (ASCII model): non-empty and all digits. -/
def pyIsDigitStr (cs : List Char) : Bool := !cs.isEmpty && cs.all Char.isDigit

/-- The record `result` built by `extract_title_page_fields`; every field is
a total `String` (absence is the empty string, never a missing value). -/
structure ExtractedRecord where
  thesis_title : String
  advisor : String
  co_advisor : String
  location : String
  submission_date : String
  student_name : String
  student_id : String
  deriving Repr, DecidableEq

/-- The all-empty initial record. -/
def emptyRecord : ExtractedRecord := ⟨"", "", "", "", "", "", ""⟩

/-- Marker for step 2: a `Chair of` or `Prof` line. -/
def chairOrProf (cs : List Char) : Bool := isChairLine cs || isProfLine cs

/-- First index `≥ i` (into the whole list) whose line satisfies `p`. -/
def findFromAux (p : List Char → Bool) : List (List Char) → ℕ → Option ℕ
  | [], _ => none
  | l :: rest, i => if p l then some i else findFromAux p rest (i + 1)

/-- `for i in range(start, len(lines)): if p(lines[i]): return i` — `none`
when no line from `start` on matches. -/
def findFrom (p : List Char → Bool) (lines : List (List Char)) (i : ℕ) : Option ℕ :=
  findFromAux p (lines.drop i) i

/-- Step 1: index after the `Master Thesis` header, or 0 when absent. -/
def startIdx (lines : List (List Char)) : ℕ :=
  match findFrom isMasterThesisLine lines 0 with
  | some i => i + 1
  | none => 0

/-- Step 2 marker search: first `Chair of`/`Prof` line at or after `startIdx`. -/
def chairIdxO (lines : List (List Char)) : Option ℕ :=
  findFrom chairOrProf lines (startIdx lines)

/-- `chair_idx` of the source: the marker position, `startIdx` when no
marker line exists. -/
def chair_idx (lines : List (List Char)) : ℕ := (chairIdxO lines).getD (startIdx lines)

/-- Step 2 title buffer: the lines between the header and the marker; the
whole remainder when no marker line exists (the source loop then appends
every line). -/
def titleLines (lines : List (List Char)) : List (List Char) :=
  match chairIdxO lines with
  | some i => (lines.drop (startIdx lines)).take (i - startIdx lines)
  | none => lines.drop (startIdx lines)

/-- Python `" ".join`. -/
def joinSpace : List (List Char) → List Char
  | [] => []
  | [l] => l
  | l :: r :: rest => l ++ ' ' :: joinSpace (r :: rest)

/-- Step 2 result: `thesis_title`. -/
def titleField (lines : List (List Char)) : List Char :=
  if titleLines lines = [] then [] else joinSpace (titleLines lines)

/-- Step 3: `advisor_idx` — first `Prof` line at or after `chair_idx`,
staying at `chair_idx` when none exists. -/
def advisor_idx (lines : List (List Char)) : ℕ :=
  (findFrom isProfLine lines (chair_idx lines)).getD (chair_idx lines)

/-- Step 3 result: `advisor` — the `advisor_idx` line, prefix-stripped, when
that index is in bounds. -/
def advisorField (lines : List (List Char)) : List Char :=
  if advisor_idx lines < lines.length then
    stripChars (subProfDr (lines.getD (advisor_idx lines) []))
  else []

/-- Step 4: `co_idx_used` — the co-advisor line index when one is accepted,
otherwise `advisor_idx`. -/
def co_idx_used (lines : List (List Char)) : ℕ :=
  let a := advisor_idx lines
  if a + 1 < lines.length ∧ isProfLine (lines.getD (a + 1) []) = false then
    (if hasLongDate (lines.getD (a + 1) []) = false ∧
        hasShortDate (lines.getD (a + 1) []) = false then a + 1 else a)
  else a

/-- Step 4 result: `co_advisor`. -/
def coAdvisorField (lines : List (List Char)) : List Char :=
  let a := advisor_idx lines
  if a + 1 < lines.length ∧ isProfLine (lines.getD (a + 1) []) = false ∧
      hasLongDate (lines.getD (a + 1) []) = false ∧
      hasShortDate (lines.getD (a + 1) []) = false then
    lines.getD (a + 1) []
  else []

/-- Step 5 inner branches on the location/date line (after the comma-split
branch has failed): long date → date only; short date → try the
parenthesised `(City, DD.MM.YYYY)` form, else date only. -/
def locDateRest (ld : List Char) : List Char × List Char :=
  if hasLongDate ld then ([], ld)
  else if hasShortDate ld then
    match searchParenLocDate ld with
    | some g => (stripChars g.1, stripChars g.2)
    | none => ([], ld)
  else ([], [])

/-- Step 5 result: the pair `(location, submission_date)`. -/
def locDateField (lines : List (List Char)) : List Char × List Char :=
  let idx := co_idx_used lines + 1
  if idx < lines.length then
    let ld := lines.getD idx []
    match (splitComma1 ld).2 with
    | some right =>
        if hasLongDate right then (stripChars (splitComma1 ld).1, stripChars right)
        else locDateRest ld
    | none => locDateRest ld
  else ([], [])

/-- Step 6 result: `student_name`. -/
def nameField (lines : List (List Char)) : List Char :=
  let idx := co_idx_used lines + 2
  if idx < lines.length then
    let c := lines.getD idx []
    if hasLongDate c = false ∧ hasShortDate c = false ∧ pyIsDigitStr c = false then c
    else []
  else []

/-- Step 7 result: `student_id`. -/
def idField (lines : List (List Char)) : List Char :=
  let idx := co_idx_used lines + 3
  if idx < lines.length then
    let l := lines.getD idx []
    if isStandaloneId l then l
    else
      match searchParenId l with
      | some g => g
      | none => []
  else []

/-- The structural pass (steps 1–7 of `extract_title_page_fields`). -/
def structuralPass (lines : List (List Char)) : ExtractedRecord :=
  { thesis_title := ⟨titleField lines⟩
    advisor := ⟨advisorField lines⟩
    co_advisor := ⟨coAdvisorField lines⟩
    location := ⟨(locDateField lines).1⟩
    submission_date := ⟨(locDateField lines).2⟩
    student_name := ⟨nameField lines⟩
    student_id := ⟨idField lines⟩ }

/-- First `(index, line)` whose line satisfies `p`. -/
def findWithIdx (p : List Char → Bool) : List (List Char) → ℕ → Option (ℕ × List Char)
  | [], _ => none
  | l :: rest, i => if p l then some (i, l) else findWithIdx p rest (i + 1)

/-- First `(index, group 1)` over the lines for the parenthesised-ID scan. -/
def findParenId : List (List Char) → ℕ → Option (ℕ × List Char)
  | [], _ => none
  | l :: rest, i =>
      match searchParenId l with
      | some g => some (i, g)
      | none => findParenId rest (i + 1)

/-- The fallback preceding-line name heuristic shared by both ID scans:
take `lines[i-1]` when `i > 0`, the name is still empty and the candidate
is not a date / digit / date-of-birth line. -/
def fbName (lines : List (List Char)) (i : ℕ) (name0 : List Char) : List Char :=
  if 0 < i ∧ name0 = [] then
    let candidate := lines.getD (i - 1) []
    if hasLongDate candidate = false ∧ hasShortDate candidate = false ∧
        pyIsDigitStr candidate = false ∧ isDobLine candidate = false then candidate
    else name0
  else name0

/-- The `student_id` fallback (with its `student_name` side effect): first
standalone 6–10-digit line, else first parenthesised 6–10-digit group;
returns the new `(student_id, student_name)` data. -/
def fbIdName (lines : List (List Char)) (name0 : List Char) : List Char × List Char :=
  match findWithIdx isStandaloneId lines 0 with
  | some p => (p.2, fbName lines p.1 name0)
  | none =>
      match findParenId lines 0 with
      | some p => (p.2, fbName lines p.1 name0)
      | none => ([], name0)

/-- The regex-fallback pass (`app.py` lines 205–243): runs only for fields
still empty, never touching `advisor`, `co_advisor`, `location`. -/
def fallbackPass (r : ExtractedRecord) (lines : List (List Char)) (raw : String) :
    ExtractedRecord :=
  let p := if r.student_id = "" then fbIdName lines r.student_name.data
           else (r.student_id.data, r.student_name.data)
  let sdate := if r.submission_date = "" then
      (match searchLongDate raw.data with
       | some g => g
       | none => r.submission_date.data)
    else r.submission_date.data
  let title := if r.thesis_title = "" ∧ 1 < lines.length then
      (if 0 < startIdx lines then lines.getD 1 [] else lines.getD 0 [])
    else r.thesis_title.data
  { r with
    student_id := ⟨p.1⟩
    student_name := ⟨p.2⟩
    submission_date := ⟨sdate⟩
    thesis_title := ⟨title⟩ }

/-- `lines = [l.strip() for l in raw.split("\n") if l.strip()]`. -/
def extractLines (raw : String) : List (List Char) :=
  ((splitNewline raw.data).map stripChars).filter (fun l => !l.isEmpty)

/-- `extract_title_page_fields` from the raw first-page text onward. -/
def extract_title_page_fields (raw : String) : ExtractedRecord :=
  let lines := extractLines raw
  if lines = [] then emptyRecord
  else fallbackPass (structuralPass lines) lines raw

/-! ### Extraction helper lemmas -/

lemma string_eq_empty_iff (s : String) : s = "" ↔ s.data = [] := by
  constructor
  · intro h; rw [h]
  · intro h; cases s; simp_all

lemma findFromAux_eq_none (p : List Char → Bool) :
    ∀ (ls : List (List Char)) (i : ℕ), (∀ l ∈ ls, p l = false) →
      findFromAux p ls i = none := by
  intro ls
  induction ls with
  | nil => intro i _; rfl
  | cons l rest ih =>
    intro i h
    rw [findFromAux]
    rw [h l (List.mem_cons_self l rest)]
    exact ih (i + 1) (fun x hx => h x (List.mem_cons_of_mem l hx))

lemma subProfDr_id (cs : List Char) (h : profSubMatches cs = false) :
    subProfDr cs = cs := by
  rw [subProfDr, if_neg (by simp [h])]

lemma fbName_of_ne_nil (lines : List (List Char)) (i : ℕ) (name0 : List Char)
    (h : name0 ≠ []) : fbName lines i name0 = name0 := by
  rw [fbName, if_neg (fun hc => h hc.2)]

lemma fbIdName_snd_of_ne_nil (lines : List (List Char)) (name0 : List Char)
    (h : name0 ≠ []) : (fbIdName lines name0).2 = name0 := by
  rw [fbIdName]
  cases hf : findWithIdx isStandaloneId lines 0 with
  | some p => simp [fbName_of_ne_nil lines p.1 name0 h]
  | none =>
    cases hg : findParenId lines 0 with
    | some p => simp [fbName_of_ne_nil lines p.1 name0 h]
    | none => rfl

/-! ### Claim theorems for the extractor -/

/-- C1: on the eight-line example title page, extraction returns exactly the
record claimed by the specification. -/
theorem extract_example_title_page :
    extract_title_page_fields
      "Master Thesis\nA Study of Something\nChair of Example\nProf. Jane Doe\nJohn Smith\nVallendar, January 5, 2024\nMax Mustermann\n12345678" =
    { thesis_title := "A Study of Something"
      advisor := "Jane Doe"
      co_advisor := "John Smith"
      location := "Vallendar"
      submission_date := "January 5, 2024"
      student_name := "Max Mustermann"
      student_id := "12345678" } := by decide

/-- C5 counterexample: a line sequence in which no line at or after the
marker position `chair_idx` matches the `Prof` pattern, yet the returned
record's advisor field is the (non-empty) marker line `"Chair of X"` —
the code still assigns `lines[advisor_idx]` because the `advisor_idx <
len(lines)` guard holds even when the scan found nothing. -/
theorem advisor_none_found_counterexample :
    (∀ l ∈ (extractLines "Master Thesis\nTitle\nChair of X\nSomebody").drop
        (chair_idx (extractLines "Master Thesis\nTitle\nChair of X\nSomebody")),
      isProfLine l = false) ∧
    (extract_title_page_fields "Master Thesis\nTitle\nChair of X\nSomebody").advisor =
      "Chair of X" ∧
    (extract_title_page_fields "Master Thesis\nTitle\nChair of X\nSomebody").advisor ≠ "" := by
  exact ⟨by decide, by decide, by decide⟩

/-- C5 (amended): when no line at or after the marker position matches the
`Prof` pattern, the cursor is not advanced past the marker
(`advisor_idx = chair_idx`); the advisor field stays empty only when the
marker position is out of bounds — otherwise it is assigned the
prefix-stripped marker line itself. -/
theorem advisor_none_found (lines : List (List Char))
    (h : ∀ l ∈ lines.drop (chair_idx lines), isProfLine l = false) :
    advisor_idx lines = chair_idx lines ∧
    (lines.length ≤ chair_idx lines → (structuralPass lines).advisor = "") ∧
    (chair_idx lines < lines.length →
      (structuralPass lines).advisor =
        ⟨stripChars (subProfDr (lines.getD (chair_idx lines) []))⟩) := by
  have hidx : advisor_idx lines = chair_idx lines := by
    rw [advisor_idx, findFrom, findFromAux_eq_none isProfLine _ _ h]
    rfl
  refine ⟨hidx, ?_, ?_⟩
  · intro hlen
    show (⟨advisorField lines⟩ : String) = ""
    rw [advisorField, hidx, if_neg (not_lt.mpr hlen)]
  · intro hlen
    show (⟨advisorField lines⟩ : String) = _
    rw [advisorField, hidx, if_pos hlen]

/-- Witness for the amended C5 at a concrete input whose marker position is
out of bounds (a single header line), where the advisor field does stay
empty. -/
theorem advisor_none_found_witness :
    advisor_idx (extractLines "Master Thesis") = chair_idx (extractLines "Master Thesis") ∧
    (structuralPass (extractLines "Master Thesis")).advisor = "" :=
  ⟨(advisor_none_found _ (by decide)).1,
    (advisor_none_found _ (by decide)).2.1 (by decide)⟩

/-- C6: the fallback pass never overwrites a field the structural pass
already filled — every field that is non-empty going in comes out with
exactly the same value (for any record, line list and raw text). -/
theorem fallback_preserves_filled (r : ExtractedRecord) (lines : List (List Char))
    (raw : String) :
    (r.thesis_title ≠ "" → (fallbackPass r lines raw).thesis_title = r.thesis_title) ∧
    (r.advisor ≠ "" → (fallbackPass r lines raw).advisor = r.advisor) ∧
    (r.co_advisor ≠ "" → (fallbackPass r lines raw).co_advisor = r.co_advisor) ∧
    (r.location ≠ "" → (fallbackPass r lines raw).location = r.location) ∧
    (r.submission_date ≠ "" → (fallbackPass r lines raw).submission_date = r.submission_date) ∧
    (r.student_name ≠ "" → (fallbackPass r lines raw).student_name = r.student_name) ∧
    (r.student_id ≠ "" → (fallbackPass r lines raw).student_id = r.student_id) := by
  refine ⟨?_, fun _ => rfl, fun _ => rfl, fun _ => rfl, ?_, ?_, ?_⟩
  · intro h
    show (⟨if r.thesis_title = "" ∧ 1 < lines.length then _ else r.thesis_title.data⟩ :
      String) = r.thesis_title
    rw [if_neg (fun hc => h hc.1)]
  · intro h
    show (⟨if r.submission_date = "" then _ else r.submission_date.data⟩ : String) =
      r.submission_date
    rw [if_neg h]
  · intro h
    show (⟨(if r.student_id = "" then fbIdName lines r.student_name.data
        else (r.student_id.data, r.student_name.data)).2⟩ : String) = r.student_name
    by_cases hid : r.student_id = ""
    · rw [if_pos hid, fbIdName_snd_of_ne_nil lines r.student_name.data
        (fun hd => h ((string_eq_empty_iff r.student_name).mpr hd))]
    · rw [if_neg hid]
  · intro h
    show (⟨(if r.student_id = "" then fbIdName lines r.student_name.data
        else (r.student_id.data, r.student_name.data)).1⟩ : String) = r.student_id
    rw [if_neg h]

/-- Witness for C6 at a concrete fully-filled record. -/
theorem fallback_preserves_filled_witness :
    (fallbackPass ⟨"t", "a", "c", "l", "d", "n", "i"⟩ [] "").thesis_title = "t" ∧
    (fallbackPass ⟨"t", "a", "c", "l", "d", "n", "i"⟩ [] "").advisor = "a" ∧
    (fallbackPass ⟨"t", "a", "c", "l", "d", "n", "i"⟩ [] "").co_advisor = "c" ∧
    (fallbackPass ⟨"t", "a", "c", "l", "d", "n", "i"⟩ [] "").location = "l" ∧
    (fallbackPass ⟨"t", "a", "c", "l", "d", "n", "i"⟩ [] "").submission_date = "d" ∧
    (fallbackPass ⟨"t", "a", "c", "l", "d", "n", "i"⟩ [] "").student_name = "n" ∧
    (fallbackPass ⟨"t", "a", "c", "l", "d", "n", "i"⟩ [] "").student_id = "i" := by
  obtain ⟨h1, h2, h3, h4, h5, h6, h7⟩ :=
    fallback_preserves_filled ⟨"t", "a", "c", "l", "d", "n", "i"⟩ [] ""
  exact ⟨h1 (by decide), h2 (by decide), h3 (by decide), h4 (by decide),
    h5 (by decide), h6 (by decide), h7 (by decide)⟩

/-- C10: advisor-line detection (`_RE_PROF`) is case-insensitive while the
prefix-stripping substitution is case-sensitive: when the advisor line
matches the `Prof` pattern only case-insensitively (the case-sensitive
substitution pattern does not match), the substitution leaves the line
unchanged, so the advisor field is the whole line (stripped) with the
prefix still present verbatim. -/
theorem advisor_strip_case_sensitive (lines : List (List Char))
    (h1 : advisor_idx lines < lines.length)
    (_h2 : isProfLine (lines.getD (advisor_idx lines) []) = true)
    (h3 : profSubMatches (lines.getD (advisor_idx lines) []) = false) :
    subProfDr (lines.getD (advisor_idx lines) []) = lines.getD (advisor_idx lines) [] ∧
    (structuralPass lines).advisor =
      ⟨stripChars (lines.getD (advisor_idx lines) [])⟩ := by
  have hs := subProfDr_id (lines.getD (advisor_idx lines) []) h3
  refine ⟨hs, ?_⟩
  show (⟨advisorField lines⟩ : String) = _
  rw [advisorField, if_pos h1, hs]

/-- Witness for C10 at the concrete advisor line `"prof. Jane Doe"`. -/
theorem advisor_strip_case_sensitive_witness :
    subProfDr ((extractLines "prof. Jane Doe").getD
        (advisor_idx (extractLines "prof. Jane Doe")) []) =
      (extractLines "prof. Jane Doe").getD
        (advisor_idx (extractLines "prof. Jane Doe")) [] ∧
    (structuralPass (extractLines "prof. Jane Doe")).advisor =
      ⟨stripChars ((extractLines "prof. Jane Doe").getD
        (advisor_idx (extractLines "prof. Jane Doe")) [])⟩ :=
  advisor_strip_case_sensitive (extractLines "prof. Jane Doe")
    (by decide) (by decide) (by decide)

/-! ### Whitespace-trimming invariant (C7) -/

/-- A character list with no leading and no trailing whitespace. -/
def TrimmedChars (l : List Char) : Prop :=
  (∀ c, l.head? = some c → pyIsSpace c = false) ∧
  (∀ c, l.getLast? = some c → pyIsSpace c = false)

/-- A string field value satisfying the spec invariant: empty, or with no
leading/trailing whitespace (the empty list satisfies `TrimmedChars`
vacuously). -/
def isTrimmedStr (s : String) : Prop := TrimmedChars s.data

lemma trimmedChars_nil : TrimmedChars [] := by
  constructor <;> intro c hc <;> simp at hc

lemma mem_of_head?_eq {α : Type} (l : List α) (a : α) (h : l.head? = some a) : a ∈ l := by
  cases l with
  | nil => simp at h
  | cons b t => simp at h; simp [h]

lemma mem_of_getLast?_eq {α : Type} (l : List α) (a : α) (h : l.getLast? = some a) :
    a ∈ l := by
  have h2 : l.reverse.head? = some a := by rw [List.head?_reverse]; exact h
  exact List.mem_reverse.mp (mem_of_head?_eq l.reverse a h2)

lemma digit_not_space (c : Char) (h : Char.isDigit c = true) : pyIsSpace c = false := by
  cases hw : pyIsSpace c with
  | false => rfl
  | true =>
    exfalso
    simp only [pyIsSpace, Bool.or_eq_true, beq_iff_eq] at hw
    rcases hw with ((((h1 | h1) | h1) | h1) | h1) | h1 <;> subst h1 <;>
      exact absurd h (by decide)

lemma space_toLower (c : Char) (h : pyIsSpace c = true) : c.toLower = c := by
  simp only [pyIsSpace, Bool.or_eq_true, beq_iff_eq] at h
  rcases h with ((((h1 | h1) | h1) | h1) | h1) | h1 <;> subst h1 <;> decide

lemma head_dropWhile (p : Char → Bool) : ∀ (l : List Char) (c : Char),
    (l.dropWhile p).head? = some c → p c = false := by
  intro l
  induction l with
  | nil => intro c hc; simp at hc
  | cons a t ih =>
    intro c hc
    rw [List.dropWhile_cons] at hc
    by_cases hp : p a = true
    · rw [if_pos hp] at hc; exact ih c hc
    · rw [if_neg hp] at hc
      simp at hc
      rw [← hc]
      exact Bool.eq_false_iff.mpr hp

lemma getLast_dropWhile (p : Char → Bool) : ∀ (l : List Char),
    l.dropWhile p ≠ [] → (l.dropWhile p).getLast? = l.getLast? := by
  intro l
  induction l with
  | nil => intro h; simp at h
  | cons a t ih =>
    intro h
    rw [List.dropWhile_cons] at h ⊢
    by_cases hp : p a = true
    · rw [if_pos hp] at h ⊢
      have ht : t ≠ [] := by
        intro h0; rw [h0] at h; simp at h
      cases t with
      | nil => exact absurd rfl ht
      | cons b t2 => rw [ih h, List.getLast?_cons_cons]
    · rw [if_neg hp]

lemma stripChars_trimmed (l : List Char) : TrimmedChars (stripChars l) := by
  unfold stripChars TrimmedChars
  constructor
  · intro c hc
    rw [List.head?_reverse] at hc
    have hne : List.dropWhile pyIsSpace (List.dropWhile pyIsSpace l).reverse ≠ [] := by
      intro h0; rw [h0] at hc; simp at hc
    rw [getLast_dropWhile pyIsSpace _ hne, List.getLast?_reverse] at hc
    exact head_dropWhile pyIsSpace _ c hc
  · intro c hc
    rw [List.getLast?_reverse] at hc
    exact head_dropWhile pyIsSpace _ c hc

lemma joinSpace_ne_nil : ∀ (parts : List (List Char)), parts ≠ [] →
    (∀ x ∈ parts, x ≠ []) → joinSpace parts ≠ [] := by
  intro parts
  match parts with
  | [] => intro h _; exact absurd rfl h
  | [l] => intro _ h; exact h l (by simp)
  | l :: r :: rest =>
    intro _ h
    rw [joinSpace]
    simp

lemma joinSpace_trimmed : ∀ (parts : List (List Char)),
    (∀ x ∈ parts, x ≠ []) → (∀ x ∈ parts, TrimmedChars x) →
    TrimmedChars (joinSpace parts)
  | [] , _, _ => by rw [joinSpace]; exact trimmedChars_nil
  | [l], _, htr => by rw [joinSpace]; exact htr l (by simp)
  | l :: r :: rest, hne, htr => by
    rw [joinSpace]
    have ih := joinSpace_trimmed (r :: rest)
      (fun x hx => hne x (List.mem_cons_of_mem l hx))
      (fun x hx => htr x (List.mem_cons_of_mem l hx))
    have hlne : l ≠ [] := hne l (by simp)
    have hl := htr l (by simp)
    have hJ : joinSpace (r :: rest) ≠ [] :=
      joinSpace_ne_nil (r :: rest) (by simp)
        (fun x hx => hne x (List.mem_cons_of_mem l hx))
    constructor
    · intro c hc
      rw [List.head?_append_of_ne_nil l hlne] at hc
      exact hl.1 c hc
    · intro c hc
      rw [List.getLast?_append_of_ne_nil l (by simp)] at hc
      cases hg : joinSpace (r :: rest) with
      | nil => exact absurd hg hJ
      | cons b t =>
        rw [hg, List.getLast?_cons_cons] at hc
        rw [← hg] at hc
        exact ih.2 c hc

lemma ciStartsWith_cons (a : Char) (ps cs : List Char)
    (h : ciStartsWith (a :: ps) cs = true) :
    ∃ c0 cs', cs = c0 :: cs' ∧ a = c0.toLower := by
  cases cs with
  | nil => simp [ciStartsWith] at h
  | cons c0 cs' =>
    rw [ciStartsWith] at h
    simp at h
    exact ⟨c0, cs', rfl, h.1⟩

lemma monthTable_heads : ∀ e ∈ monthTable,
    e.1.head?.all (fun a => !pyIsSpace a) = true ∧ 0 < e.1.length := by decide

lemma head?_take_pos (c0 : Char) (cs' : List Char) (k : ℕ) (hk : 0 < k) :
    ((c0 :: cs').take k).head? = some c0 := by
  cases k with
  | zero => exact absurd hk (by simp)
  | succ n => rfl

lemma dateTail_spec (cs t : List Char) (h : dateTail cs = some t) :
    t ≠ [] ∧ (∀ c, t.getLast? = some c → Char.isDigit c = true) := by
  simp only [dateTail] at h
  split at h
  · exact absurd h (by simp)
  · split at h
    · exact absurd h (by simp)
    · split at h
      case isTrue hy =>
        simp only [Option.some.injEq] at h
        subst h
        have hyne :
            List.takeWhile Char.isDigit
              (List.dropWhile commaWs
                (List.dropWhile Char.isDigit (List.dropWhile wsDot cs))) ≠ [] := by
          intro h0
          rw [h0] at hy
          simp at hy
        refine ⟨?_, ?_⟩
        · intro h0
          rw [List.append_eq_nil] at h0
          exact hyne h0.2
        · intro c hc
          rw [List.getLast?_append_of_ne_nil _ hyne] at hc
          exact List.mem_takeWhile_imp (mem_of_getLast?_eq _ c hc)
      case isFalse => exact absurd h (by simp)

lemma month_take_trimmed (e : List Char × List Char) (cs : List Char)
    (he : e ∈ monthTable) (hci : ciStartsWith e.1 cs = true)
    (k : ℕ) (hk : 0 < k) (t : List Char) (ht : t ≠ [])
    (htd : ∀ c, t.getLast? = some c → Char.isDigit c = true) :
    TrimmedChars (cs.take k ++ t) := by
  cases hm : e.1 with
  | nil =>
    have hlen := (monthTable_heads e he).2
    rw [hm] at hlen
    exact absurd hlen (by decide)
  | cons a as =>
    rw [hm] at hci
    have hfact : pyIsSpace a = false := by
      have h0 := (monthTable_heads e he).1
      rw [hm] at h0
      simpa using h0
    obtain ⟨c0, cs', hcs, hlow⟩ := ciStartsWith_cons a as cs hci
    subst hcs
    have htake : ((c0 :: cs').take k).head? = some c0 := head?_take_pos c0 cs' k hk
    have htne : (c0 :: cs').take k ≠ [] := by
      intro h0; rw [h0] at htake; simp at htake
    constructor
    · intro c hc
      rw [List.head?_append_of_ne_nil _ htne, htake] at hc
      have hcc : c = c0 := by simpa using hc.symm
      subst hcc
      by_contra hw
      rw [Bool.not_eq_false] at hw
      rw [space_toLower _ hw] at hlow
      rw [hlow] at hfact
      rw [hfact] at hw
      exact Bool.noConfusion hw
    · intro c hc
      rw [List.getLast?_append_of_ne_nil _ ht] at hc
      exact digit_not_space c (htd c hc)

lemma longDateAt_trimmed (prev : Option Char) (cs g : List Char)
    (h : longDateAt prev cs = some g) : TrimmedChars g := by
  simp only [longDateAt] at h
  split at h
  · exact absurd h (by simp)
  · split at h
    case h_1 => exact absurd h (by simp)
    case h_2 e he =>
      have hmem : e ∈ monthTable := List.mem_of_find?_eq_some he
      have hci : ciStartsWith e.1 cs = true := by
        have h0 := List.find?_some he
        simpa using h0
      have hlen : 0 < e.1.length := (monthTable_heads e hmem).2
      split at h
      case h_1 t ht =>
        simp only [Option.some.injEq] at h
        subst h
        split at ht
        case isTrue =>
          obtain ⟨htne, htd⟩ := dateTail_spec _ t ht
          exact month_take_trimmed e cs hmem hci _ (by omega) t htne htd
        case isFalse => exact absurd ht (by simp)
      case h_2 =>
        split at h
        case h_1 t ht =>
          simp only [Option.some.injEq] at h
          subst h
          obtain ⟨htne, htd⟩ := dateTail_spec _ t ht
          exact month_take_trimmed e cs hmem hci _ hlen t htne htd
        case h_2 => exact absurd h (by simp)

lemma searchO_some {α : Type} (f : Option Char → List Char → Option α) :
    ∀ (prev : Option Char) (cs : List Char) (g : α), searchO f prev cs = some g →
      ∃ prev' cs', f prev' cs' = some g := by
  intro prev cs
  induction cs generalizing prev with
  | nil => intro g h; simp [searchO] at h
  | cons c rest ih =>
    intro g h
    rw [searchO] at h
    split at h
    case h_1 r hr =>
      simp at h
      exact ⟨prev, c :: rest, by rw [hr, h]⟩
    case h_2 => exact ih (some c) g h

lemma searchLongDate_trimmed (cs g : List Char) (h : searchLongDate cs = some g) :
    TrimmedChars g := by
  obtain ⟨prev', cs', h2⟩ := searchO_some longDateAt none cs g h
  exact longDateAt_trimmed prev' cs' g h2

lemma digits_trimmed (g : List Char) (h : ∀ c ∈ g, Char.isDigit c = true) :
    TrimmedChars g := by
  constructor
  · intro c hc; exact digit_not_space c (h c (mem_of_head?_eq g c hc))
  · intro c hc; exact digit_not_space c (h c (mem_of_getLast?_eq g c hc))

lemma parenIdAt_digits (l g : List Char) (h : parenIdAt l = some g) :
    ∀ c ∈ g, Char.isDigit c = true := by
  rw [parenIdAt.eq_def] at h
  split at h
  case h_1 rest =>
    split at h
    case isTrue =>
      simp only [Option.some.injEq] at h
      subst h
      exact fun c hc => List.mem_takeWhile_imp hc
    case isFalse => exact absurd h (by simp)
  case h_2 => exact absurd h (by simp)

lemma searchParenId_digits : ∀ (cs g : List Char), searchParenId cs = some g →
    ∀ c ∈ g, Char.isDigit c = true := by
  intro cs
  induction cs with
  | nil => intro g h; simp [searchParenId] at h
  | cons c rest ih =>
    intro g h
    rw [searchParenId] at h
    split at h
    case h_1 r hr =>
      simp only [Option.some.injEq] at h
      subst h
      exact parenIdAt_digits _ r hr
    case h_2 => exact ih g h

lemma findWithIdx_mem (p : List Char → Bool) : ∀ (ls : List (List Char)) (i : ℕ)
    (q : ℕ × List Char), findWithIdx p ls i = some q → q.2 ∈ ls := by
  intro ls
  induction ls with
  | nil => intro i q h; simp [findWithIdx] at h
  | cons l rest ih =>
    intro i q h
    rw [findWithIdx] at h
    by_cases hp : p l = true
    · rw [if_pos hp] at h
      simp only [Option.some.injEq] at h
      rw [← h]
      exact List.mem_cons_self l rest
    · rw [if_neg hp] at h
      exact List.mem_cons_of_mem l (ih (i + 1) q h)

lemma findParenId_digits : ∀ (ls : List (List Char)) (i : ℕ) (q : ℕ × List Char),
    findParenId ls i = some q → ∀ c ∈ q.2, Char.isDigit c = true := by
  intro ls
  induction ls with
  | nil => intro i q h; simp [findParenId] at h
  | cons l rest ih =>
    intro i q h
    rw [findParenId] at h
    split at h
    case h_1 g hg =>
      simp only [Option.some.injEq] at h
      rw [← h]
      exact searchParenId_digits l g hg
    case h_2 => exact ih (i + 1) q h

/-- All lines produced by the line segmentation are non-empty and trimmed. -/
def linesOK (lines : List (List Char)) : Prop := ∀ l ∈ lines, l ≠ [] ∧ TrimmedChars l

lemma extractLines_ok (raw : String) : linesOK (extractLines raw) := by
  intro l hl
  unfold extractLines at hl
  obtain ⟨hmem, hne⟩ := List.mem_filter.mp hl
  obtain ⟨y, _, hy⟩ := List.mem_map.mp hmem
  constructor
  · intro h0; rw [h0] at hne; simp at hne
  · rw [← hy]; exact stripChars_trimmed y

lemma getD_trimmed (lines : List (List Char)) (h : linesOK lines) (i : ℕ) :
    TrimmedChars (lines.getD i []) := by
  rw [List.getD_eq_getD_get?]
  cases hg : lines.get? i with
  | none => exact trimmedChars_nil
  | some x => exact (h x (List.get?_mem hg)).2

lemma titleLines_sub (lines : List (List Char)) : ∀ x ∈ titleLines lines, x ∈ lines := by
  intro x hx
  unfold titleLines at hx
  split at hx
  · exact List.drop_subset _ lines (List.take_subset _ _ hx)
  · exact List.drop_subset _ lines hx

lemma titleField_trimmed (lines : List (List Char)) (h : linesOK lines) :
    TrimmedChars (titleField lines) := by
  unfold titleField
  split
  · exact trimmedChars_nil
  · exact joinSpace_trimmed (titleLines lines)
      (fun x hx => (h x (titleLines_sub lines x hx)).1)
      (fun x hx => (h x (titleLines_sub lines x hx)).2)

lemma advisorField_trimmed (lines : List (List Char)) :
    TrimmedChars (advisorField lines) := by
  unfold advisorField
  split
  · exact stripChars_trimmed _
  · exact trimmedChars_nil

lemma coAdvisorField_trimmed (lines : List (List Char)) (h : linesOK lines) :
    TrimmedChars (coAdvisorField lines) := by
  simp only [coAdvisorField]
  split
  · exact getD_trimmed lines h _
  · exact trimmedChars_nil

lemma locDateRest_trimmed (ld : List Char) (h : TrimmedChars ld) :
    TrimmedChars (locDateRest ld).1 ∧ TrimmedChars (locDateRest ld).2 := by
  unfold locDateRest
  split
  · exact ⟨trimmedChars_nil, h⟩
  · split
    · split
      · exact ⟨stripChars_trimmed _, stripChars_trimmed _⟩
      · exact ⟨trimmedChars_nil, h⟩
    · exact ⟨trimmedChars_nil, trimmedChars_nil⟩

lemma locDateField_trimmed (lines : List (List Char)) (h : linesOK lines) :
    TrimmedChars (locDateField lines).1 ∧ TrimmedChars (locDateField lines).2 := by
  simp only [locDateField]
  split
  · split
    · split
      · exact ⟨stripChars_trimmed _, stripChars_trimmed _⟩
      · exact locDateRest_trimmed _ (getD_trimmed lines h _)
    · exact locDateRest_trimmed _ (getD_trimmed lines h _)
  · exact ⟨trimmedChars_nil, trimmedChars_nil⟩

lemma nameField_trimmed (lines : List (List Char)) (h : linesOK lines) :
    TrimmedChars (nameField lines) := by
  simp only [nameField]
  split
  · split
    · exact getD_trimmed lines h _
    · exact trimmedChars_nil
  · exact trimmedChars_nil

lemma idField_trimmed (lines : List (List Char)) (h : linesOK lines) :
    TrimmedChars (idField lines) := by
  simp only [idField]
  split
  · split
    · exact getD_trimmed lines h _
    · split
      case h_1 g hg => exact digits_trimmed g (searchParenId_digits _ g hg)
      case h_2 => exact trimmedChars_nil
  · exact trimmedChars_nil

lemma fbName_trimmed (lines : List (List Char)) (i : ℕ) (name0 : List Char)
    (h : linesOK lines) (hn : TrimmedChars name0) :
    TrimmedChars (fbName lines i name0) := by
  simp only [fbName]
  split
  · split
    · exact getD_trimmed lines h _
    · exact hn
  · exact hn

lemma fbIdName_trimmed (lines : List (List Char)) (name0 : List Char)
    (h : linesOK lines) (hn : TrimmedChars name0) :
    TrimmedChars (fbIdName lines name0).1 ∧ TrimmedChars (fbIdName lines name0).2 := by
  simp only [fbIdName]
  split
  case h_1 q hq =>
    exact ⟨(h q.2 (findWithIdx_mem _ _ _ q hq)).2, fbName_trimmed lines q.1 name0 h hn⟩
  case h_2 =>
    split
    case h_1 q hq =>
      exact ⟨digits_trimmed q.2 (findParenId_digits _ _ q hq),
        fbName_trimmed lines q.1 name0 h hn⟩
    case h_2 => exact ⟨trimmedChars_nil, hn⟩

/-- The spec invariant on a whole record: every one of the seven (total,
never-missing) string fields is empty or free of leading/trailing
whitespace. -/
def recordTrimmed (r : ExtractedRecord) : Prop :=
  isTrimmedStr r.thesis_title ∧ isTrimmedStr r.advisor ∧ isTrimmedStr r.co_advisor ∧
  isTrimmedStr r.location ∧ isTrimmedStr r.submission_date ∧
  isTrimmedStr r.student_name ∧ isTrimmedStr r.student_id

lemma structuralPass_trimmed (lines : List (List Char)) (h : linesOK lines) :
    recordTrimmed (structuralPass lines) :=
  ⟨titleField_trimmed lines h, advisorField_trimmed lines, coAdvisorField_trimmed lines h,
    (locDateField_trimmed lines h).1, (locDateField_trimmed lines h).2,
    nameField_trimmed lines h, idField_trimmed lines h⟩

lemma fallbackPass_trimmed (r : ExtractedRecord) (lines : List (List Char)) (raw : String)
    (h : linesOK lines) (hr : recordTrimmed r) :
    recordTrimmed (fallbackPass r lines raw) := by
  obtain ⟨h1, h2, h3, h4, h5, h6, h7⟩ := hr
  refine ⟨?_, h2, h3, h4, ?_, ?_, ?_⟩
  · show TrimmedChars (if r.thesis_title = "" ∧ 1 < lines.length then
      (if 0 < startIdx lines then lines.getD 1 [] else lines.getD 0 []) else r.thesis_title.data)
    split
    · split
      · exact getD_trimmed lines h 1
      · exact getD_trimmed lines h 0
    · exact h1
  · show TrimmedChars (if r.submission_date = "" then
      (match searchLongDate raw.data with
       | some g => g
       | none => r.submission_date.data)
      else r.submission_date.data)
    split
    · split
      case h_1 g hg => exact searchLongDate_trimmed raw.data g hg
      case h_2 => exact h5
    · exact h5
  · show TrimmedChars (if r.student_id = "" then fbIdName lines r.student_name.data
      else (r.student_id.data, r.student_name.data)).2
    split
    · exact (fbIdName_trimmed lines r.student_name.data h h6).2
    · exact h6
  · show TrimmedChars (if r.student_id = "" then fbIdName lines r.student_name.data
      else (r.student_id.data, r.student_name.data)).1
    split
    · exact (fbIdName_trimmed lines r.student_name.data h h6).1
    · exact h7

/-- C7: for every raw input text, every field of the extracted record is a
total string that is either empty or has no leading or trailing whitespace
(absence is always the empty string — the record type has no optional
fields). -/
theorem extract_fields_always_trimmed (raw : String) :
    recordTrimmed (extract_title_page_fields raw) := by
  simp only [extract_title_page_fields]
  split
  · exact ⟨trimmedChars_nil, trimmedChars_nil, trimmedChars_nil, trimmedChars_nil,
      trimmedChars_nil, trimmedChars_nil, trimmedChars_nil⟩
  · exact fallbackPass_trimmed _ _ _ (extractLines_ok raw)
      (structuralPass_trimmed _ (extractLines_ok raw))
